import Mathlib

/-!
Shallow embedding of the Cakebox checkout / loyalty-ledger backend
(src/main.py, src/schemas.py).

Money values (the Python floats `price`, `subtotal`, `total`) are modelled
as exact rationals `ℚ`; integer point counts as `Int` (Python ints are
unbounded).  Python's `//` on nonnegative ints matches Lean's `Int`
division; Python's `int()` on a float truncates toward zero, modelled by
`Int.tdiv` on the rational's numerator and denominator.  Python's
`round(x, 2)` is modelled as rounding `x * 100` to the nearest integer
over 100 (Python rounds exact halves to even on binary floats; no claim
here depends on tie behaviour).

The database is modelled as association lists keyed by the id string, and
every database interaction of the `checkout` handler (lookups and writes)
is recorded, in program order, in an explicit event trace, so that
"fails before any persistence write" is a statement about the trace the
code actually produces.
-/

namespace Cakebox

/-- Validity of an id string: `bson.ObjectId` accepts exactly the
24-character hexadecimal strings, and `ensure_object_id` (src/main.py
line 27) wraps this check, turning its failure into the HTTP 400
"Invalid id format" error. -/
def isValidObjectId (s : String) : Bool :=
  s.length == 24 &&
    s.toList.all fun c =>
      c.isDigit || ('a' ≤ c && c ≤ 'f') || ('A' ≤ c && c ≤ 'F')

/-- schemas.ProductVariant: a named variant with its own price. -/
structure ProductVariant where
  name : String
  price : ℚ
deriving DecidableEq

/-- schemas.Product: the catalog document fields the checkout handler
reads (`price`, `title`), plus the declared-but-unused `variants`. -/
structure Product where
  title : String
  price : ℚ
  variants : List ProductVariant := []
deriving DecidableEq

/-- main.CartItem: one line of the checkout request body. `quantity` is a
plain int — the request model puts no lower bound on it. -/
structure CartItem where
  product_id : String
  quantity : Int
  variant : Option String := none
deriving DecidableEq

/-- main.CheckoutRequest: the body of POST /api/checkout. -/
structure CheckoutRequest where
  user_id : String
  items : List CartItem
  redeem_points : Int := 0
deriving DecidableEq

/-- One order line, as built in the pricing loop (src/main.py lines
120-126): a snapshot of title and unit price at purchase time. -/
structure OrderItem where
  product_id : String
  title : String
  quantity : Int
  unit_price : ℚ
  variant : Option String
deriving DecidableEq

/-- The order document the handler persists (src/main.py lines 146-155). -/
structure Order where
  user_id : String
  items : List OrderItem
  subtotal : ℚ
  discount : ℚ
  total : ℚ
  points_earned : Int
  points_redeemed : Int
  status : String
deriving DecidableEq

/-- schemas.LoyaltyTransaction: an append-only ledger entry.  `order_id`
holds the generated id of the related order (here: its index in the
order collection at creation time). -/
structure LoyaltyTransaction where
  user_id : String
  order_id : Option Nat
  type : String
  points : Int
  note : String
deriving DecidableEq

/-- The document store: products and users keyed by their id string
(the user record reduced to the one field checkout reads and writes,
`loyalty_points`), plus the append-only order and transaction
collections. -/
structure DB where
  products : List (String × Product)
  users : List (String × Int)
  orders : List Order
  txs : List LoyaltyTransaction
deriving DecidableEq

/-- Lookup of a product document by id, as find_one on the product
collection. -/
def DB.findProduct (db : DB) (id : String) : Option Product :=
  db.products.lookup id

/-- Lookup of a user by id, as find_one on the user collection, reduced
to the one field checkout reads: the integer loyalty-points balance. -/
def DB.findUser (db : DB) (id : String) : Option Int :=
  db.users.lookup id

/-- Balance update, as update_one on the user collection: replace the
balance of the first record carrying the given key. -/
def updateUserBalance : List (String × Int) → String → Int → List (String × Int)
  | [], _, _ => []
  | (k, v) :: rest, uid, b =>
    if k == uid then (k, b) :: rest else (k, v) :: updateUserBalance rest uid b

/-- A database interaction of the checkout handler, in program order. -/
inductive Event where
  | lookupProduct (id : String)
  | lookupUser (id : String)
  | insertOrder (o : Order)
  | updateBalance (id : String) (newBalance : Int)
  | insertTx (t : LoyaltyTransaction)
deriving DecidableEq

/-- Whether an event writes to the store (everything except a lookup). -/
def Event.isWrite : Event → Bool
  | .lookupProduct _ => false
  | .lookupUser _ => false
  | .insertOrder _ => true
  | .updateBalance _ _ => true
  | .insertTx _ => true

/-- The HTTP 400 failures the checkout handler can raise. -/
inductive CheckoutError where
  /-- "Invalid id format" (from `ensure_object_id`). -/
  | invalidId
  /-- "Product not found: {id}". -/
  | productNotFound (id : String)
  /-- "User not found". -/
  | userNotFound
  /-- "Not enough points". -/
  | insufficientPoints
deriving DecidableEq

/-- The JSON body of a successful checkout (src/main.py line 180). -/
structure CheckoutResponse where
  order_id : Nat
  total : ℚ
  points_earned : Int
  points_redeemed : Int
  new_balance : Int
deriving DecidableEq

/-- Python `int()` applied to the (here: rational) subtotal: truncation
toward zero. -/
def pyInt (q : ℚ) : Int :=
  q.num.tdiv q.den

/-- Python `round(x, 2)`: round to two decimal places. -/
def round2 (q : ℚ) : ℚ :=
  ((round (q * 100) : ℤ) : ℚ) / 100

/-- The pricing loop of the checkout handler (src/main.py lines 112-128):
for each cart item validate the product id, look the product up, snapshot
title and base unit price into an order line, and accumulate
`price * quantity` into the subtotal.  The first failure aborts the loop.
Returns the lookup events performed alongside the result. -/
def priceCart (db : DB) : List CartItem → List Event × Except CheckoutError (List OrderItem × ℚ)
  | [] => ([], .ok ([], 0))
  | ci :: rest =>
    if isValidObjectId ci.product_id then
      match db.findProduct ci.product_id with
      | none => ([.lookupProduct ci.product_id], .error (.productNotFound ci.product_id))
      | some prod =>
        let line : OrderItem :=
          { product_id := ci.product_id, title := prod.title,
            quantity := ci.quantity, unit_price := prod.price,
            variant := ci.variant }
        let (tr, res) := priceCart db rest
        (.lookupProduct ci.product_id :: tr,
         res.map fun pr => (line :: pr.1, prod.price * (ci.quantity : ℚ) + pr.2))
    else ([], .error .invalidId)

/-- The mutation phase of the checkout handler (src/main.py lines
130-180), reached once pricing, user lookup and the points validation
have all passed: compute the settlement figures, persist the order,
update the balance, and append the redeem/earn ledger entries.  Returns
the write events in program order, the updated store and the response
body.  (`points_earn` is computed at line 131, before the validation, but
is pure; it is computed here unchanged.) -/
def settleAndPersist (db : DB) (p : CheckoutRequest) (items : List OrderItem)
    (subtotal : ℚ) (balance : Int) : List Event × DB × CheckoutResponse :=
  let points_earn : Int := pyInt subtotal
  let redeem : Int := max 0 p.redeem_points
  let discount : Int := redeem / 100 * 5
  let points_redeemed : Int := redeem / 100 * 100
  let total : ℚ := max 0 (subtotal - (discount : ℚ))
  let order : Order :=
    { user_id := p.user_id, items := items, subtotal := round2 subtotal,
      discount := (discount : ℚ), total := round2 total,
      points_earned := points_earn, points_redeemed := points_redeemed,
      status := "placed" }
  let order_id : Nat := db.orders.length
  let new_balance : Int := balance - points_redeemed + points_earn
  let redeemTxs : List LoyaltyTransaction :=
    if points_redeemed > 0 then
      [{ user_id := p.user_id, order_id := some order_id, type := "redeem",
         points := -points_redeemed, note := "Points redeemed at checkout" }]
    else []
  let earnTxs : List LoyaltyTransaction :=
    if points_earn > 0 then
      [{ user_id := p.user_id, order_id := some order_id, type := "earn",
         points := points_earn, note := "Points earned from order" }]
    else []
  ([Event.insertOrder order, Event.updateBalance p.user_id new_balance]
     ++ redeemTxs.map Event.insertTx ++ earnTxs.map Event.insertTx,
   { db with users := updateUserBalance db.users p.user_id new_balance,
             orders := db.orders ++ [order],
             txs := db.txs ++ redeemTxs ++ earnTxs },
   { order_id := order_id, total := order.total, points_earned := points_earn,
     points_redeemed := points_redeemed, new_balance := new_balance })

/-- The checkout handler, POST /api/checkout (src/main.py lines 109-180):
price the cart (aborting on an invalid or unknown product id), clamp the
redemption request, validate the user id, load the user, validate the
redemption against the balance, then settle and persist. -/
def checkout (db : DB) (p : CheckoutRequest) :
    List Event × Except CheckoutError (DB × CheckoutResponse) :=
  match priceCart db p.items with
  | (tr, .error e) => (tr, .error e)
  | (tr, .ok (items, subtotal)) =>
    let redeem : Int := max 0 p.redeem_points
    if isValidObjectId p.user_id then
      match db.findUser p.user_id with
      | none => (tr ++ [Event.lookupUser p.user_id], .error .userNotFound)
      | some balance =>
        if redeem > balance then
          (tr ++ [Event.lookupUser p.user_id], .error .insufficientPoints)
        else
          let r := settleAndPersist db p items subtotal balance
          (tr ++ Event.lookupUser p.user_id :: r.1, .ok (r.2.1, r.2.2))
    else (tr, .error .invalidId)

/-- Run a sequence of checkout requests one after the other, succeeding
only if every one of them succeeds. -/
def runCheckouts (db : DB) : List CheckoutRequest → Option DB
  | [] => some db
  | p :: rest =>
    match checkout db p with
    | (_, .ok (db2, _)) => runCheckouts db2 rest
    | (_, .error _) => none

/-- The sum of the ledger point deltas recorded for one user, in creation
order. -/
def txSum (uid : String) (txs : List LoyaltyTransaction) : Int :=
  ((txs.filter fun t => t.user_id == uid).map LoyaltyTransaction.points).sum

/-- The lookup id of an event, when it is a lookup. -/
def Event.lookupId : Event → Option String
  | .lookupProduct id => some id
  | .lookupUser id => some id
  | _ => none

/-- A well-formed product id (24 hex characters). -/
def pidCake : String := "aaaaaaaaaaaaaaaaaaaaaaaa"

/-- A well-formed id behind which no product is stored. -/
def pidGhost : String := "cccccccccccccccccccccccc"

/-- A well-formed user id. -/
def uidAda : String := "bbbbbbbbbbbbbbbbbbbbbbbb"

/-- A malformed identifier (not 24 hex characters). -/
def badId : String := "not-an-object-id"

/-- Store for the spec's end-to-end scenario: one cake at 24.99 and one
user holding 150 points. -/
def dbMain : DB :=
  { products := [(pidCake, { title := "Classic Vanilla Cake", price := 24.99 })],
    users := [(uidAda, 150)], orders := [], txs := [] }

/-- The end-to-end request: two cakes, redeem 120 points. -/
def reqMain : CheckoutRequest :=
  { user_id := uidAda, items := [{ product_id := pidCake, quantity := 2 }],
    redeem_points := 120 }

/-- Store with a product priced 12.5 and a fresh user with 0 points. -/
def dbHalf : DB :=
  { products := [(pidCake, { title := "Half", price := 12.5 })],
    users := [(uidAda, 0)], orders := [], txs := [] }

/-- A request with a negative quantity — accepted by the request model,
which places no lower bound on quantities. -/
def reqNegQty : CheckoutRequest :=
  { user_id := uidAda, items := [{ product_id := pidCake, quantity := -1 }],
    redeem_points := 0 }

/-- A benign single-item request against `dbHalf`. -/
def reqOne : CheckoutRequest :=
  { user_id := uidAda, items := [{ product_id := pidCake, quantity := 1 }],
    redeem_points := 0 }

/-- An empty-cart request that still asks to redeem points. -/
def reqEmpty : CheckoutRequest :=
  { user_id := uidAda, items := [], redeem_points := 120 }

/-- A request whose product id is well-formed but not in the catalog. -/
def reqGhost : CheckoutRequest :=
  { user_id := uidAda, items := [{ product_id := pidGhost, quantity := 1 }],
    redeem_points := 0 }

/-- A request with a resolvable product but a malformed user id. -/
def reqBadUser : CheckoutRequest :=
  { user_id := badId, items := [{ product_id := pidCake, quantity := 1 }],
    redeem_points := 0 }

/-- Success path of `checkout`, forward direction. -/
theorem checkout_ok_spec (db : DB) (p : CheckoutRequest) (tr0 : List Event)
    (items : List OrderItem) (subtotal : ℚ) (balance : Int)
    (hp : priceCart db p.items = (tr0, .ok (items, subtotal)))
    (hv : isValidObjectId p.user_id = true)
    (hu : db.findUser p.user_id = some balance)
    (hb : max 0 p.redeem_points ≤ balance) :
    checkout db p =
      (tr0 ++ Event.lookupUser p.user_id :: (settleAndPersist db p items subtotal balance).1,
       .ok ((settleAndPersist db p items subtotal balance).2.1,
            (settleAndPersist db p items subtotal balance).2.2)) := by
  unfold checkout
  rw [hp, hv, hu]
  simp [not_lt.mpr hb]

/-- Success path of `checkout`, inversion. -/
theorem checkout_ok_inv (db : DB) (p : CheckoutRequest) (tr : List Event)
    (db2 : DB) (resp : CheckoutResponse)
    (h : checkout db p = (tr, .ok (db2, resp))) :
    ∃ tr0 items subtotal balance,
      priceCart db p.items = (tr0, .ok (items, subtotal)) ∧
      isValidObjectId p.user_id = true ∧
      db.findUser p.user_id = some balance ∧
      max 0 p.redeem_points ≤ balance ∧
      tr = tr0 ++ Event.lookupUser p.user_id :: (settleAndPersist db p items subtotal balance).1 ∧
      db2 = (settleAndPersist db p items subtotal balance).2.1 ∧
      resp = (settleAndPersist db p items subtotal balance).2.2 := by
  unfold checkout at h
  rcases hpc : priceCart db p.items with ⟨tr0, res⟩
  rw [hpc] at h
  cases res with
  | error e => simp at h
  | ok pr =>
    obtain ⟨items, subtotal⟩ := pr
    dsimp only at h
    by_cases hv : isValidObjectId p.user_id = true
    · rw [if_pos hv] at h
      cases hu : db.findUser p.user_id with
      | none => rw [hu] at h; dsimp only at h; simp at h
      | some balance =>
        rw [hu] at h
        dsimp only at h
        by_cases hb : max 0 p.redeem_points > balance
        · rw [if_pos hb] at h; simp at h
        · rw [if_neg hb] at h
          obtain ⟨h1, h2⟩ := Prod.mk.inj h
          obtain ⟨h3, h4⟩ := Prod.mk.inj (Except.ok.inj h2)
          exact ⟨tr0, items, subtotal, balance, rfl, hv, rfl, not_lt.mp hb, h1.symm, h3.symm, h4.symm⟩
    · rw [if_neg hv] at h; simp at h

theorem pyInt_eq_floor (q : ℚ) (h : 0 ≤ q) : pyInt q = ⌊q⌋ := by
  rw [pyInt, Rat.floor_def]
  exact Int.tdiv_eq_ediv (Rat.num_nonneg.mpr h) (Int.natCast_nonneg q.den)

theorem pyInt_nonneg (q : ℚ) (h : 0 ≤ q) : 0 ≤ pyInt q :=
  Int.tdiv_nonneg (Rat.num_nonneg.mpr h) (Int.natCast_nonneg q.den)

theorem pyInt_intCast (n : ℤ) : pyInt (n : ℚ) = n := by
  simp [pyInt, Int.tdiv_one]

theorem round2_zero : round2 0 = 0 := by
  simp [round2]

/-- Every event the pricing loop emits is a product lookup of a
validated id. -/
theorem priceCart_trace (db : DB) :
    ∀ (l : List CartItem) (ev : Event), ev ∈ (priceCart db l).1 →
      ∃ id, ev = Event.lookupProduct id ∧ isValidObjectId id = true := by
  intro l
  induction l with
  | nil => intro ev hev; simp [priceCart] at hev
  | cons ci rest ih =>
    intro ev hev
    by_cases hv : isValidObjectId ci.product_id = true
    · rw [priceCart, if_pos hv] at hev
      cases hfind : db.findProduct ci.product_id with
      | none =>
        rw [hfind] at hev
        simp at hev
        exact ⟨ci.product_id, hev, hv⟩
      | some prod =>
        rw [hfind] at hev
        rcases hrec : priceCart db rest with ⟨tr, res⟩
        rw [hrec] at hev
        simp at hev
        rcases hev with hev | hev
        · exact ⟨ci.product_id, hev, hv⟩
        · exact ih ev (hrec ▸ hev)
    · rw [priceCart, if_neg hv] at hev
      simp at hev

/-- Structure of a successful pricing run: lines match the cart items
one for one, each snapshotting the looked-up product's base price and
title, and the subtotal is the sum of `unit_price * quantity`. -/
theorem priceCart_ok_items (db : DB) :
    ∀ (l : List CartItem) (tr : List Event) (items : List OrderItem) (s : ℚ),
      priceCart db l = (tr, .ok (items, s)) →
      List.Forall₂ (fun ci it =>
        it.product_id = ci.product_id ∧ it.quantity = ci.quantity ∧
        it.variant = ci.variant ∧ isValidObjectId ci.product_id = true ∧
        ∃ prod, db.findProduct ci.product_id = some prod ∧
          it.unit_price = prod.price ∧ it.title = prod.title) l items ∧
      s = (items.map fun it => it.unit_price * (it.quantity : ℚ)).sum := by
  intro l
  induction l with
  | nil =>
    intro tr items s h
    rw [priceCart] at h
    obtain ⟨h1, h2⟩ := Prod.mk.inj h
    obtain ⟨h3, h4⟩ := Prod.mk.inj (Except.ok.inj h2)
    subst h3; subst h4
    simp
  | cons ci rest ih =>
    intro tr items s h
    by_cases hv : isValidObjectId ci.product_id = true
    · rw [priceCart, if_pos hv] at h
      cases hfind : db.findProduct ci.product_id with
      | none => rw [hfind] at h; simp at h
      | some prod =>
        rw [hfind] at h
        rcases hrec : priceCart db rest with ⟨tr1, res⟩
        rw [hrec] at h
        cases res with
        | error e => simp [Except.map] at h
        | ok pr =>
          obtain ⟨h1, h2⟩ := Prod.mk.inj h
          obtain ⟨h3, h4⟩ := Prod.mk.inj (Except.ok.inj h2)
          obtain ⟨ihf, ihs⟩ := ih tr1 pr.1 pr.2 (by rw [hrec])
          subst h3
          constructor
          · exact List.Forall₂.cons ⟨rfl, rfl, rfl, hv, prod, hfind, rfl, rfl⟩ ihf
          · simp [← h4, ihs]
    · rw [priceCart, if_neg hv] at h
      simp at h

/-- Reassigning the chosen variants of a cart changes nothing in the
pricing run except the recorded variant field of each line: same trace,
same error if any, same unit prices and subtotal. -/
theorem priceCart_variant_irrelevant (db : DB) (g : Option String → Option String) :
    ∀ l : List CartItem,
      priceCart db (l.map fun ci => { ci with variant := g ci.variant }) =
        ((priceCart db l).1,
         (priceCart db l).2.map fun pr =>
           (pr.1.map fun it => { it with variant := g it.variant }, pr.2)) := by
  intro l
  induction l with
  | nil => simp [priceCart, Except.map]
  | cons ci rest ih =>
    simp only [List.map_cons]
    rw [priceCart, priceCart]
    dsimp only
    by_cases hv : isValidObjectId ci.product_id = true
    · simp only [hv, if_true]
      rcases hfind : db.findProduct ci.product_id with _ | prod
      · simp [Except.map]
      · dsimp only
        rw [ih]
        rcases hres : (priceCart db rest).2 with e | pr <;> simp [Except.map]
    · simp [hv, Except.map]

/-- When every cart item has a valid id that resolves in the catalog,
the pricing loop succeeds. -/
theorem priceCart_all_found (db : DB) :
    ∀ l : List CartItem,
      (∀ ci ∈ l, isValidObjectId ci.product_id = true ∧
        ∃ prod, db.findProduct ci.product_id = some prod) →
      ∃ tr items s, priceCart db l = (tr, .ok (items, s)) := by
  intro l
  induction l with
  | nil => exact fun _ => ⟨[], [], 0, rfl⟩
  | cons ci rest ih =>
    intro hall
    obtain ⟨hv, prod, hfind⟩ := hall ci (by simp)
    obtain ⟨tr, items, s, hrec⟩ := ih fun x hx => hall x (by simp [hx])
    refine ⟨Event.lookupProduct ci.product_id :: tr,
      { product_id := ci.product_id, title := prod.title, quantity := ci.quantity,
        unit_price := prod.price, variant := ci.variant } :: items,
      prod.price * (ci.quantity : ℚ) + s, ?_⟩
    rw [priceCart, if_pos hv, hfind]
    dsimp only
    rw [hrec]
    rfl

/-- With a catalog of nonnegative prices and a cart of nonnegative
quantities, the subtotal of a successful pricing run is nonnegative. -/
theorem priceCart_subtotal_nonneg (db : DB)
    (hprice : ∀ id prod, db.findProduct id = some prod → 0 ≤ prod.price) :
    ∀ (l : List CartItem) (tr : List Event) (items : List OrderItem) (s : ℚ),
      (∀ ci ∈ l, 0 ≤ ci.quantity) →
      priceCart db l = (tr, .ok (items, s)) → 0 ≤ s := by
  intro l
  induction l with
  | nil =>
    intro tr items s _ h
    rw [priceCart] at h
    obtain ⟨_, h2⟩ := Prod.mk.inj h
    obtain ⟨_, h4⟩ := Prod.mk.inj (Except.ok.inj h2)
    simp [← h4]
  | cons ci rest ih =>
    intro tr items s hq h
    by_cases hv : isValidObjectId ci.product_id = true
    · rw [priceCart, if_pos hv] at h
      rcases hfind : db.findProduct ci.product_id with _ | prod
      · rw [hfind] at h; simp at h
      · rw [hfind] at h
        rcases hrec : priceCart db rest with ⟨tr1, res⟩
        rw [hrec] at h
        cases res with
        | error e => simp [Except.map] at h
        | ok pr =>
          obtain ⟨_, h2⟩ := Prod.mk.inj h
          obtain ⟨_, h4⟩ := Prod.mk.inj (Except.ok.inj h2)
          have hrest : 0 ≤ pr.2 :=
            ih tr1 pr.1 pr.2 (fun x hx => hq x (by simp [hx])) (by rw [hrec])
          have hp : 0 ≤ prod.price := hprice ci.product_id prod hfind
          have hqn : (0 : ℚ) ≤ (ci.quantity : ℚ) := by
            exact_mod_cast hq ci (by simp)
          rw [← h4]
          positivity
    · rw [priceCart, if_neg hv] at h
      simp at h

theorem lookup_updateUserBalance_self :
    ∀ (l : List (String × Int)) (uid : String) (b v : Int),
      l.lookup uid = some v → (updateUserBalance l uid b).lookup uid = some b := by
  intro l
  induction l with
  | nil => intro uid b v h; simp [List.lookup] at h
  | cons kv rest ih =>
    intro uid b v h
    obtain ⟨k, w⟩ := kv
    by_cases hk : k = uid
    · subst hk
      simp [updateUserBalance, List.lookup]
    · have hk1 : (k == uid) = false := beq_eq_false_iff_ne.mpr hk
      have hk2 : (uid == k) = false := beq_eq_false_iff_ne.mpr (Ne.symm hk)
      simp only [List.lookup, hk2] at h
      rw [updateUserBalance, if_neg (by simp [hk1])]
      simp only [List.lookup, hk2]
      exact ih uid b v h

theorem lookup_updateUserBalance_other :
    ∀ (l : List (String × Int)) (uid w : String) (b : Int), w ≠ uid →
      (updateUserBalance l uid b).lookup w = l.lookup w := by
  intro l
  induction l with
  | nil => intro uid w b _; simp [updateUserBalance]
  | cons kv rest ih =>
    intro uid w b hne
    obtain ⟨k, v⟩ := kv
    by_cases hk : k = uid
    · subst hk
      have hkw : (w == k) = false := beq_eq_false_iff_ne.mpr hne
      rw [updateUserBalance, if_pos (by simp)]
      simp only [List.lookup, hkw]
    · have hk1 : (k == uid) = false := beq_eq_false_iff_ne.mpr hk
      rw [updateUserBalance, if_neg (by simp [hk1])]
      simp only [List.lookup]
      cases hkw : w == k with
      | true => rfl
      | false => exact ih uid w b hne

theorem txSum_append (uid : String) (a b : List LoyaltyTransaction) :
    txSum uid (a ++ b) = txSum uid a + txSum uid b := by
  simp [txSum, List.filter_append]

theorem txSum_other (uid : String) (t : LoyaltyTransaction) (h : t.user_id ≠ uid) :
    txSum uid [t] = 0 := by
  simp [txSum, List.filter, beq_eq_false_iff_ne.mpr h]

theorem txSum_self (uid : String) (t : LoyaltyTransaction) (h : t.user_id = uid) :
    txSum uid [t] = t.points := by
  simp [txSum, List.filter, h]

/-- The trace of a failed checkout is the pricing lookups, possibly
followed by the single user lookup — nothing else. -/
theorem checkout_error_trace (db : DB) (p : CheckoutRequest) (tr : List Event)
    (e : CheckoutError) (h : checkout db p = (tr, .error e)) :
    tr = (priceCart db p.items).1 ∨
      tr = (priceCart db p.items).1 ++ [Event.lookupUser p.user_id] := by
  unfold checkout at h
  rcases hpc : priceCart db p.items with ⟨tr0, res⟩
  rw [hpc] at h
  cases res with
  | error e2 =>
    obtain ⟨h1, _⟩ := Prod.mk.inj h
    left; exact h1.symm
  | ok pr =>
    obtain ⟨items, subtotal⟩ := pr
    dsimp only at h
    by_cases hv : isValidObjectId p.user_id = true
    · rw [if_pos hv] at h
      cases hu : db.findUser p.user_id with
      | none =>
        rw [hu] at h
        dsimp only at h
        obtain ⟨h1, _⟩ := Prod.mk.inj h
        right; exact h1.symm
      | some balance =>
        rw [hu] at h
        dsimp only at h
        by_cases hb : max 0 p.redeem_points > balance
        · rw [if_pos hb] at h
          obtain ⟨h1, _⟩ := Prod.mk.inj h
          right; exact h1.symm
        · rw [if_neg hb] at h
          simp at h
    · rw [if_neg hv] at h
      obtain ⟨h1, _⟩ := Prod.mk.inj h
      left; exact h1.symm

/-- A failed checkout performed no write at all. -/
theorem checkout_error_no_writes (db : DB) (p : CheckoutRequest) (tr : List Event)
    (e : CheckoutError) (h : checkout db p = (tr, .error e)) :
    tr.filter Event.isWrite = [] := by
  have hfil : (priceCart db p.items).1.filter Event.isWrite = [] := by
    rw [List.filter_eq_nil_iff]
    intro a ha
    obtain ⟨id, rfl, _⟩ := priceCart_trace db p.items a ha
    simp [Event.isWrite]
  rcases checkout_error_trace db p tr e h with rfl | rfl
  · exact hfil
  · rw [List.filter_append, hfil]
    simp [Event.isWrite]

/-- The write phase emits no lookups. -/
theorem settleAndPersist_no_lookups (db : DB) (p : CheckoutRequest)
    (items : List OrderItem) (subtotal : ℚ) (balance : Int) :
    ∀ ev ∈ (settleAndPersist db p items subtotal balance).1, ev.lookupId = none := by
  intro ev hev
  rw [settleAndPersist] at hev
  dsimp only at hev
  split_ifs at hev <;> simp at hev <;>
    rcases hev with rfl | rfl | rfl | rfl <;> rfl

/-- Shape of the full checkout trace: the pricing lookups, then — only
after the user id passed validation — the user lookup and possibly the
write phase. -/
theorem checkout_trace_shape (db : DB) (p : CheckoutRequest) :
    (checkout db p).1 = (priceCart db p.items).1 ∨
      (isValidObjectId p.user_id = true ∧
        ((checkout db p).1 = (priceCart db p.items).1 ++ [Event.lookupUser p.user_id] ∨
         ∃ items subtotal balance,
           (checkout db p).1 = (priceCart db p.items).1 ++
             Event.lookupUser p.user_id :: (settleAndPersist db p items subtotal balance).1)) := by
  unfold checkout
  rcases hpc : priceCart db p.items with ⟨tr0, res⟩
  cases res with
  | error e => left; rfl
  | ok pr =>
    obtain ⟨items, subtotal⟩ := pr
    dsimp only
    by_cases hv : isValidObjectId p.user_id = true
    · rw [if_pos hv]
      cases hu : db.findUser p.user_id with
      | none => exact Or.inr ⟨hv, Or.inl rfl⟩
      | some balance =>
        dsimp only
        by_cases hb : max 0 p.redeem_points > balance
        · rw [if_pos hb]
          exact Or.inr ⟨hv, Or.inl rfl⟩
        · rw [if_neg hb]
          exact Or.inr ⟨hv, Or.inr ⟨items, subtotal, balance, rfl⟩⟩
    · rw [if_neg hv]
      left; rfl

/-- Every lookup event of any checkout run carries a validated id: a
malformed identifier is never used in a lookup. -/
theorem checkout_lookups_valid (db : DB) (p : CheckoutRequest) :
    ∀ ev ∈ (checkout db p).1, ∀ id, ev.lookupId = some id → isValidObjectId id = true := by
  intro ev hev id hid
  have hpc : ∀ ev ∈ (priceCart db p.items).1, ∀ id, ev.lookupId = some id →
      isValidObjectId id = true := by
    intro ev hev id hid
    obtain ⟨id2, rfl, hvalid⟩ := priceCart_trace db p.items ev hev
    simp [Event.lookupId] at hid
    exact hid ▸ hvalid
  rcases checkout_trace_shape db p with htr | ⟨hv, htr | ⟨items, subtotal, balance, htr⟩⟩
  · exact hpc ev (htr ▸ hev) id hid
  · rw [htr] at hev
    rcases List.mem_append.mp hev with hmem | hmem
    · exact hpc ev hmem id hid
    · simp at hmem
      subst hmem
      simp [Event.lookupId] at hid
      exact hid ▸ hv
  · rw [htr] at hev
    rcases List.mem_append.mp hev with hmem | hmem
    · exact hpc ev hmem id hid
    · rcases List.mem_cons.mp hmem with rfl | hmem
      · simp [Event.lookupId] at hid
        exact hid ▸ hv
      · rw [settleAndPersist_no_lookups db p items subtotal balance ev hmem] at hid
        cases hid

/-- A pricing failure is returned as-is: nothing after the pricing loop
runs. -/
theorem checkout_priceError (db : DB) (p : CheckoutRequest) (tr0 : List Event)
    (e : CheckoutError) (h : priceCart db p.items = (tr0, .error e)) :
    checkout db p = (tr0, .error e) := by
  unfold checkout
  rw [h]

/-- A pricing success with a malformed user id yields the invalid-id
error before the user lookup. -/
theorem checkout_invalidUser (db : DB) (p : CheckoutRequest) (tr0 : List Event)
    (items : List OrderItem) (subtotal : ℚ)
    (hp : priceCart db p.items = (tr0, .ok (items, subtotal)))
    (hv : isValidObjectId p.user_id = false) :
    checkout db p = (tr0, .error .invalidId) := by
  unfold checkout
  rw [hp]
  dsimp only
  rw [if_neg (by simp [hv])]

/-- The pricing loop can only fail with an invalid-id or
product-not-found error. -/
theorem priceCart_error_shape (db : DB) :
    ∀ (l : List CartItem) (tr : List Event) (e : CheckoutError),
      priceCart db l = (tr, .error e) →
      e = .invalidId ∨ ∃ id, e = .productNotFound id := by
  intro l
  induction l with
  | nil => intro tr e h; simp [priceCart] at h
  | cons ci rest ih =>
    intro tr e h
    by_cases hv : isValidObjectId ci.product_id = true
    · rw [priceCart, if_pos hv] at h
      rcases hfind : db.findProduct ci.product_id with _ | prod
      · rw [hfind] at h
        dsimp only at h
        obtain ⟨_, h2⟩ := Prod.mk.inj h
        exact Or.inr ⟨ci.product_id, (Except.error.inj h2).symm⟩
      · rw [hfind] at h
        dsimp only at h
        rcases hrec : priceCart db rest with ⟨tr1, res⟩
        rw [hrec] at h
        dsimp only at h
        cases res with
        | error e2 =>
          obtain ⟨_, h2⟩ := Prod.mk.inj h
          have he : e2 = e := by simpa [Except.map] using h2
          exact he ▸ ih tr1 e2 (by rw [hrec])
        | ok pr => simp [Except.map] at h
    · rw [priceCart, if_neg hv] at h
      obtain ⟨_, h2⟩ := Prod.mk.inj h
      exact Or.inl (Except.error.inj h2).symm

/-- UserNotFound is only reached once the whole cart has priced and the
user id has been validated. -/
theorem checkout_userNotFound_inv (db : DB) (p : CheckoutRequest)
    (h : (checkout db p).2 = .error .userNotFound) :
    (∃ tr0 items subtotal, priceCart db p.items = (tr0, .ok (items, subtotal))) ∧
      isValidObjectId p.user_id = true ∧ db.findUser p.user_id = none := by
  unfold checkout at h
  rcases hpc : priceCart db p.items with ⟨tr0, res⟩
  rw [hpc] at h
  cases res with
  | error e =>
    simp at h
    rcases priceCart_error_shape db p.items tr0 e hpc with he | ⟨id, he⟩ <;> simp [h] at he
  | ok pr =>
    obtain ⟨items, subtotal⟩ := pr
    dsimp only at h
    by_cases hv : isValidObjectId p.user_id = true
    · rw [if_pos hv] at h
      cases hu : db.findUser p.user_id with
      | none => exact ⟨⟨tr0, items, subtotal, rfl⟩, hv, rfl⟩
      | some balance =>
        rw [hu] at h
        dsimp only at h
        by_cases hb : max 0 p.redeem_points > balance
        · rw [if_pos hb] at h; simp at h
        · rw [if_neg hb] at h; simp at h
    · rw [if_neg hv] at h; simp at h

/-- InsufficientPoints is only reached once the cart has priced, the
user id validated, and the user found — and exactly when the clamped
redemption exceeds the balance. -/
theorem checkout_insufficient_inv (db : DB) (p : CheckoutRequest)
    (h : (checkout db p).2 = .error .insufficientPoints) :
    (∃ tr0 items subtotal, priceCart db p.items = (tr0, .ok (items, subtotal))) ∧
      isValidObjectId p.user_id = true ∧
      ∃ balance, db.findUser p.user_id = some balance ∧
        max 0 p.redeem_points > balance := by
  unfold checkout at h
  rcases hpc : priceCart db p.items with ⟨tr0, res⟩
  rw [hpc] at h
  cases res with
  | error e =>
    simp at h
    rcases priceCart_error_shape db p.items tr0 e hpc with he | ⟨id, he⟩ <;> simp [h] at he
  | ok pr =>
    obtain ⟨items, subtotal⟩ := pr
    dsimp only at h
    by_cases hv : isValidObjectId p.user_id = true
    · rw [if_pos hv] at h
      cases hu : db.findUser p.user_id with
      | none => rw [hu] at h; simp at h
      | some balance =>
        rw [hu] at h
        dsimp only at h
        by_cases hb : max 0 p.redeem_points > balance
        · exact ⟨⟨tr0, items, subtotal, rfl⟩, hv, balance, rfl, hb⟩
        · rw [if_neg hb] at h; simp at h
    · rw [if_neg hv] at h; simp at h

/-- With pricing done, user id valid and user found, checkout fails
with InsufficientPoints exactly when the clamped request exceeds the
balance. -/
theorem checkout_insufficient_iff (db : DB) (p : CheckoutRequest) (tr0 : List Event)
    (items : List OrderItem) (subtotal : ℚ) (balance : Int)
    (hp : priceCart db p.items = (tr0, .ok (items, subtotal)))
    (hv : isValidObjectId p.user_id = true)
    (hu : db.findUser p.user_id = some balance) :
    (checkout db p).2 = .error .insufficientPoints ↔ max 0 p.redeem_points > balance := by
  constructor
  · intro h
    obtain ⟨_, _, balance2, hu2, hb2⟩ := checkout_insufficient_inv db p h
    rw [hu] at hu2
    exact (Option.some.inj hu2) ▸ hb2
  · intro hb
    unfold checkout
    rw [hp]
    dsimp only
    rw [if_pos hv, hu]
    dsimp only
    rw [if_pos hb]

theorem pyInt_neg (q : ℚ) : pyInt (-q) = -pyInt q := by
  simp [pyInt, Int.neg_tdiv]

/-- Helper: a Forall₂ relation gives, for each member of the right list,
a related member of the left list. -/
theorem forall₂_mem_right {α β : Type} {R : α → β → Prop} :
    ∀ {l1 : List α} {l2 : List β}, List.Forall₂ R l1 l2 → ∀ b ∈ l2, ∃ a ∈ l1, R a b := by
  intro l1 l2 h
  induction h with
  | nil => intro b hb; simp at hb
  | cons hr _ ih =>
    intro b hb
    rcases List.mem_cons.mp hb with rfl | hb
    · exact ⟨_, by simp, hr⟩
    · obtain ⟨a, ha, hab⟩ := ih b hb
      exact ⟨a, by simp [ha], hab⟩

/-- Helper: a Forall₂ relation gives, for each member of the left list,
a related member of the right list. -/
theorem forall₂_mem_left {α β : Type} {R : α → β → Prop} :
    ∀ {l1 : List α} {l2 : List β}, List.Forall₂ R l1 l2 → ∀ a ∈ l1, ∃ b ∈ l2, R a b := by
  intro l1 l2 h
  induction h with
  | nil => intro a ha; simp at ha
  | cons hr _ ih =>
    intro a ha
    rcases List.mem_cons.mp ha with rfl | ha
    · exact ⟨_, by simp, hr⟩
    · obtain ⟨b, hb, hab⟩ := ih a ha
      exact ⟨b, by simp [hb], hab⟩

/-- C1: on a successful checkout the settlement clamps the requested
redemption to a minimum of 0, redeems `floor(clamped/100)*100` points for
a discount of `floor(clamped/100)*5`, and the returned and persisted
total is `max 0 (subtotal - discount)` rounded to two decimal places. -/
theorem checkout_settlement_formulas (db : DB) (p : CheckoutRequest)
    (tr tr0 : List Event) (db2 : DB) (resp : CheckoutResponse)
    (items : List OrderItem) (subtotal : ℚ)
    (h : checkout db p = (tr, .ok (db2, resp)))
    (hp : priceCart db p.items = (tr0, .ok (items, subtotal))) :
    resp.points_redeemed = max 0 p.redeem_points / 100 * 100 ∧
    resp.total = round2 (max 0 (subtotal - ((max 0 p.redeem_points / 100 * 5 : Int) : ℚ))) ∧
    ∃ o : Order, db2.orders = db.orders ++ [o] ∧
      o.discount = ((max 0 p.redeem_points / 100 * 5 : Int) : ℚ) ∧
      o.total = resp.total := by
  obtain ⟨tr0b, itemsb, subtotalb, balance, hp2, hv, hu, hb, htr, hdb2, hresp⟩ :=
    checkout_ok_inv db p tr db2 resp h
  rw [hp] at hp2
  obtain ⟨h1, h2⟩ := Prod.mk.inj hp2
  obtain ⟨h3, h4⟩ := Prod.mk.inj (Except.ok.inj h2)
  subst h1; subst h3; subst h4
  subst hdb2; subst hresp
  exact ⟨rfl, rfl, _, rfl, rfl, rfl⟩

/-- C2: with the cart priced, the user id valid and the user loaded,
checkout fails with InsufficientPoints exactly when the clamped
redemption request strictly exceeds the stored balance; a request for
exactly the (nonnegative) balance succeeds. -/
theorem insufficient_points_boundary (db : DB) (p : CheckoutRequest)
    (tr0 : List Event) (items : List OrderItem) (subtotal : ℚ) (balance : Int)
    (hp : priceCart db p.items = (tr0, .ok (items, subtotal)))
    (hv : isValidObjectId p.user_id = true)
    (hu : db.findUser p.user_id = some balance) :
    ((checkout db p).2 = .error .insufficientPoints ↔ max 0 p.redeem_points > balance) ∧
    (p.redeem_points = balance → 0 ≤ balance →
      ∃ db2 resp, (checkout db p).2 = .ok (db2, resp)) := by
  refine ⟨checkout_insufficient_iff db p tr0 items subtotal balance hp hv hu, ?_⟩
  intro hrb hbnn
  have hb : max 0 p.redeem_points ≤ balance := by
    subst hrb
    exact max_le hbnn le_rfl
  have hok := checkout_ok_spec db p tr0 items subtotal balance hp hv hu hb
  exact ⟨_, _, by rw [hok]⟩

/-- C4: the three domain failures are raised before any persistence
write, in the fixed precedence order: a pricing failure (ProductNotFound
or an invalid product id) is returned as-is before the user is even
looked at; UserNotFound presupposes the whole cart priced; and
InsufficientPoints presupposes the cart priced and the user found. -/
theorem failures_precede_writes (db : DB) (p : CheckoutRequest) :
    (∀ tr e, checkout db p = (tr, .error e) → tr.filter Event.isWrite = []) ∧
    (∀ tr0 e, priceCart db p.items = (tr0, .error e) → checkout db p = (tr0, .error e)) ∧
    ((checkout db p).2 = .error .userNotFound →
      ∃ tr0 items subtotal, priceCart db p.items = (tr0, .ok (items, subtotal))) ∧
    ((checkout db p).2 = .error .insufficientPoints →
      (∃ tr0 items subtotal, priceCart db p.items = (tr0, .ok (items, subtotal))) ∧
      ∃ balance, db.findUser p.user_id = some balance ∧
        max 0 p.redeem_points > balance) := by
  refine ⟨fun tr e h => checkout_error_no_writes db p tr e h,
    fun tr0 e h => checkout_priceError db p tr0 e h,
    fun h => (checkout_userNotFound_inv db p h).1,
    fun h => ?_⟩
  obtain ⟨hpr, _, hbal⟩ := checkout_insufficient_inv db p h
  exact ⟨hpr, hbal⟩

/-- C6: every successfully priced line carries the product's base unit
price (and title) as its snapshot, the subtotal is the sum of
`unit_price * quantity` over the lines, and reassigning the chosen
variants changes nothing but the recorded variant field — same lines,
same unit prices, same subtotal. -/
theorem pricing_uses_base_price (db : DB) (l : List CartItem)
    (tr : List Event) (items : List OrderItem) (s : ℚ)
    (h : priceCart db l = (tr, .ok (items, s))) :
    (∀ it ∈ items, ∃ prod, db.findProduct it.product_id = some prod ∧
      it.unit_price = prod.price) ∧
    s = (items.map fun it => it.unit_price * (it.quantity : ℚ)).sum ∧
    (∀ g : Option String → Option String,
      priceCart db (l.map fun ci => { ci with variant := g ci.variant }) =
        (tr, .ok (items.map fun it => { it with variant := g it.variant }, s))) := by
  obtain ⟨hf, hs⟩ := priceCart_ok_items db l tr items s h
  refine ⟨?_, hs, ?_⟩
  · intro it hit
    obtain ⟨ci, _, hpid, _, _, _, prod, hfind, hprice, _⟩ := forall₂_mem_right hf it hit
    exact ⟨prod, hpid ▸ hfind, hprice⟩
  · intro g
    rw [priceCart_variant_irrelevant db g l, h]
    rfl

/-- C3 (amended): on a successful checkout the stored balance becomes
`balance - points_redeemed + points_earned`; it is nonnegative whenever
the starting balance, the catalog prices and the cart quantities are. -/
theorem new_balance_correct (db : DB) (p : CheckoutRequest) (tr : List Event)
    (db2 : DB) (resp : CheckoutResponse) (balance : Int)
    (h : checkout db p = (tr, .ok (db2, resp)))
    (hu : db.findUser p.user_id = some balance) :
    resp.new_balance = balance - resp.points_redeemed + resp.points_earned ∧
    db2.findUser p.user_id = some resp.new_balance ∧
    (0 ≤ balance →
      (∀ id prod, db.findProduct id = some prod → 0 ≤ prod.price) →
      (∀ ci ∈ p.items, 0 ≤ ci.quantity) →
      0 ≤ resp.new_balance) := by
  obtain ⟨tr0, items, subtotal, balance2, hp, hv, hu2, hb, htr, hdb2, hresp⟩ :=
    checkout_ok_inv db p tr db2 resp h
  rw [hu] at hu2
  obtain rfl := Option.some.inj hu2
  subst hdb2; subst hresp
  refine ⟨rfl, ?_, ?_⟩
  · exact lookup_updateUserBalance_self db.users p.user_id _ balance hu
  · intro hb0 hpr hq
    have hsub : 0 ≤ subtotal :=
      priceCart_subtotal_nonneg db hpr p.items tr0 items subtotal hq hp
    have hpe : 0 ≤ pyInt subtotal := pyInt_nonneg subtotal hsub
    show (0 : Int) ≤ balance - max 0 p.redeem_points / 100 * 100 + pyInt subtotal
    have hm : (0 : Int) ≤ max 0 p.redeem_points := le_max_left 0 p.redeem_points
    generalize max 0 p.redeem_points = m at hb hm
    generalize pyInt subtotal = pe at hpe
    omega

/-- C5 (amended): on a successful checkout over a catalog of nonnegative prices
and a cart of nonnegative quantities, the earned points are the floor of
the pre-discount subtotal. -/
theorem points_earned_floor (db : DB) (p : CheckoutRequest) (tr tr0 : List Event)
    (db2 : DB) (resp : CheckoutResponse) (items : List OrderItem) (subtotal : ℚ)
    (h : checkout db p = (tr, .ok (db2, resp)))
    (hp : priceCart db p.items = (tr0, .ok (items, subtotal)))
    (hpr : ∀ id prod, db.findProduct id = some prod → 0 ≤ prod.price)
    (hq : ∀ ci ∈ p.items, 0 ≤ ci.quantity) :
    resp.points_earned = ⌊subtotal⌋ := by
  obtain ⟨tr0b, itemsb, subtotalb, balance, hp2, hv, hu, hb, htr, hdb2, hresp⟩ :=
    checkout_ok_inv db p tr db2 resp h
  rw [hp] at hp2
  obtain ⟨h1, h2⟩ := Prod.mk.inj hp2
  obtain ⟨h3, h4⟩ := Prod.mk.inj (Except.ok.inj h2)
  subst h1; subst h3; subst h4
  subst hresp
  have hsub : 0 ≤ subtotal :=
    priceCart_subtotal_nonneg db hpr p.items tr0 items subtotal hq hp
  exact pyInt_eq_floor subtotal hsub

/-- C7: a successful checkout appends a redeem ledger entry with delta
`-points_redeemed` exactly when `points_redeemed > 0`, then an earn entry
with delta `+points_earned` exactly when `points_earned > 0`, in that
order, each linked to the id of the order created by this checkout. -/
theorem ledger_entries (db : DB) (p : CheckoutRequest) (tr : List Event)
    (db2 : DB) (resp : CheckoutResponse)
    (h : checkout db p = (tr, .ok (db2, resp))) :
    resp.order_id = db.orders.length ∧
    (∃ o, db2.orders = db.orders ++ [o]) ∧
    db2.txs = (db.txs ++
      (if resp.points_redeemed > 0 then
        [{ user_id := p.user_id, order_id := some resp.order_id, type := "redeem",
           points := -resp.points_redeemed, note := "Points redeemed at checkout" }]
       else [])) ++
      (if resp.points_earned > 0 then
        [{ user_id := p.user_id, order_id := some resp.order_id, type := "earn",
           points := resp.points_earned, note := "Points earned from order" }]
       else []) := by
  obtain ⟨tr0, items, subtotal, balance, hp, hv, hu, hb, htr, hdb2, hresp⟩ :=
    checkout_ok_inv db p tr db2 resp h
  subst hdb2; subst hresp
  exact ⟨rfl, ⟨_, rfl⟩, rfl⟩

/-- C10: an empty cart is not rejected: with a valid, existing user and
a clamped redemption within the balance, checkout succeeds, persists an
order with no lines, subtotal 0, total 0 and no earned points, and still
applies the redemption to the balance. -/
theorem empty_cart_checkout (db : DB) (p : CheckoutRequest) (balance : Int)
    (hitems : p.items = [])
    (hv : isValidObjectId p.user_id = true)
    (hu : db.findUser p.user_id = some balance)
    (hb : max 0 p.redeem_points ≤ balance) :
    ∃ tr db2 resp, checkout db p = (tr, .ok (db2, resp)) ∧
      resp.total = 0 ∧ resp.points_earned = 0 ∧
      resp.points_redeemed = max 0 p.redeem_points / 100 * 100 ∧
      resp.new_balance = balance - resp.points_redeemed ∧
      (∃ o : Order, db2.orders = db.orders ++ [o] ∧ o.items = [] ∧
        o.subtotal = 0 ∧ o.total = 0 ∧ o.points_earned = 0) ∧
      db2.findUser p.user_id = some resp.new_balance := by
  have hp : priceCart db p.items = ([], .ok ([], 0)) := by rw [hitems]; rfl
  have hok := checkout_ok_spec db p [] [] 0 balance hp hv hu hb
  have hpe : pyInt 0 = 0 := by
    rw [pyInt_eq_floor 0 le_rfl]
    exact Int.floor_zero
  have hdisc : (0 : Int) ≤ max 0 p.redeem_points / 100 * 5 := by
    have hm : (0 : Int) ≤ max 0 p.redeem_points := le_max_left 0 p.redeem_points
    positivity
  have htot : (max 0 (0 - ((max 0 p.redeem_points / 100 * 5 : Int) : ℚ))) = 0 := by
    rw [zero_sub, max_eq_left]
    simpa using hdisc
  refine ⟨_, _, _, hok, ?_, ?_, rfl, ?_, ⟨_, rfl, rfl, round2_zero, ?_, ?_⟩, ?_⟩
  · show round2 (max 0 (0 - ((max 0 p.redeem_points / 100 * 5 : Int) : ℚ))) = 0
    rw [htot, round2_zero]
  · exact hpe
  · show balance - max 0 p.redeem_points / 100 * 100 + pyInt 0 =
      balance - max 0 p.redeem_points / 100 * 100
    rw [hpe, add_zero]
  · show round2 (max 0 (0 - ((max 0 p.redeem_points / 100 * 5 : Int) : ℚ))) = 0
    rw [htot, round2_zero]
  · exact hpe
  · exact lookup_updateUserBalance_self db.users p.user_id _ balance hu

theorem txSum_nil (uid : String) : txSum uid [] = 0 := rfl

/-- A successful checkout keeps each user's stored balance reconciled
with that user's ledger deltas, and leaves the catalog unchanged. -/
theorem checkout_preserves_ledger (db : DB) (p : CheckoutRequest) (tr : List Event)
    (db2 : DB) (resp : CheckoutResponse) (uid : String) (bal : Int)
    (hpr : ∀ id prod, db.findProduct id = some prod → 0 ≤ prod.price)
    (hq : ∀ ci ∈ p.items, 0 ≤ ci.quantity)
    (h : checkout db p = (tr, .ok (db2, resp)))
    (hu : db.findUser uid = some bal) (hinv : bal = txSum uid db.txs) :
    db2.findUser uid = some (txSum uid db2.txs) ∧ db2.products = db.products := by
  obtain ⟨tr0, items, subtotal, balance, hp, hv, hu2, hb, htr, hdb2, hresp⟩ :=
    checkout_ok_inv db p tr db2 resp h
  subst hdb2
  refine ⟨?_, rfl⟩
  have hpe : 0 ≤ pyInt subtotal :=
    pyInt_nonneg subtotal (priceCart_subtotal_nonneg db hpr p.items tr0 items subtotal hq hp)
  have hprd : (0 : Int) ≤ max 0 p.redeem_points / 100 * 100 := by
    have hm : (0 : Int) ≤ max 0 p.redeem_points := le_max_left 0 p.redeem_points
    positivity
  by_cases huid : uid = p.user_id
  · subst huid
    rw [hu] at hu2
    obtain rfl := Option.some.inj hu2
    have hself := lookup_updateUserBalance_self db.users p.user_id
      (bal - max 0 p.redeem_points / 100 * 100 + pyInt subtotal) bal hu
    refine Eq.trans hself ?_
    congr 1
    show bal - max 0 p.redeem_points / 100 * 100 + pyInt subtotal =
      txSum p.user_id ((db.txs ++
        (if (max 0 p.redeem_points / 100 * 100 : Int) > 0 then
          [{ user_id := p.user_id, order_id := some db.orders.length, type := "redeem",
             points := -(max 0 p.redeem_points / 100 * 100),
             note := "Points redeemed at checkout" }] else [])) ++
        (if pyInt subtotal > 0 then
          [{ user_id := p.user_id, order_id := some db.orders.length, type := "earn",
             points := pyInt subtotal, note := "Points earned from order" }] else []))
    rw [txSum_append, txSum_append, ← hinv]
    split_ifs with h1 h2 h2 <;> simp [txSum] <;> omega
  · have hne : p.user_id ≠ uid := fun hh => huid hh.symm
    have hother : ∀ b : Int,
        (updateUserBalance db.users p.user_id b).lookup uid = db.users.lookup uid :=
      fun b => lookup_updateUserBalance_other db.users p.user_id uid b (fun hh => huid hh)
    refine Eq.trans (hother _) ?_
    have hu2 : List.lookup uid db.users = some bal := hu
    rw [hu2, hinv]
    congr 1
    show txSum uid db.txs = txSum uid ((db.txs ++ _) ++ _)
    rw [txSum_append, txSum_append]
    split_ifs <;> simp [txSum, hne]

/-- Running a sequence of successful checkouts preserves the
balance/ledger reconciliation for every user. -/
theorem runCheckouts_ledger (uid : String) :
    ∀ (reqs : List CheckoutRequest) (db db2 : DB) (bal : Int),
      (∀ id prod, db.findProduct id = some prod → 0 ≤ prod.price) →
      (∀ p ∈ reqs, ∀ ci ∈ p.items, 0 ≤ ci.quantity) →
      db.findUser uid = some bal → bal = txSum uid db.txs →
      runCheckouts db reqs = some db2 →
      db2.findUser uid = some (txSum uid db2.txs) := by
  intro reqs
  induction reqs with
  | nil =>
    intro db db2 bal hpr hq hu hinv hrun
    rw [runCheckouts] at hrun
    obtain rfl := Option.some.inj hrun
    rw [hu, hinv]
  | cons p rest ih =>
    intro db db2 bal hpr hq hu hinv hrun
    rw [runCheckouts] at hrun
    rcases hco : checkout db p with ⟨tr, res⟩
    rw [hco] at hrun
    cases res with
    | error e => simp at hrun
    | ok pr =>
      obtain ⟨dbm, resp⟩ := pr
      dsimp only at hrun
      obtain ⟨hf, hprods⟩ := checkout_preserves_ledger db p tr dbm resp uid bal hpr
        (hq p (by simp)) hco hu hinv
      exact ih dbm db2 (txSum uid dbm.txs)
        (fun id prod hh => hpr id prod (by rwa [DB.findProduct, hprods] at hh))
        (fun x hx => hq x (by simp [hx])) hf rfl hrun

/-- C8 (amended): starting from a freshly created user (stored balance 0,
no ledger entries) and applying any sequence of successful checkouts over
a catalog of nonnegative prices with carts of nonnegative quantities, the
sum of the user's ledger deltas equals the final stored balance. -/
theorem ledger_reconciles (db : DB) (reqs : List CheckoutRequest) (uid : String)
    (db2 : DB)
    (hpr : ∀ id prod, db.findProduct id = some prod → 0 ≤ prod.price)
    (hq : ∀ p ∈ reqs, ∀ ci ∈ p.items, 0 ≤ ci.quantity)
    (hu : db.findUser uid = some 0)
    (htx : txSum uid db.txs = 0)
    (hrun : runCheckouts db reqs = some db2) :
    db2.findUser uid = some (txSum uid db2.txs) :=
  runCheckouts_ledger uid reqs db db2 0 hpr hq hu htx.symm hrun

/-- C9 (amended): a malformed identifier is never used in a lookup —
every id is validated right before its own lookup, so lookups of earlier
well-formed ids may already have happened.  Any request carrying a
malformed id fails with no write performed, and when the malformed id is
the first failure encountered the error is the invalid-id error,
distinct from the not-found errors. -/
theorem invalid_ids_never_looked_up (db : DB) (p : CheckoutRequest) :
    (∀ ev ∈ (checkout db p).1, ∀ id, ev.lookupId = some id →
      isValidObjectId id = true) ∧
    ((isValidObjectId p.user_id = false ∨
        ∃ ci ∈ p.items, isValidObjectId ci.product_id = false) →
      (∃ e, (checkout db p).2 = .error e) ∧
      (checkout db p).1.filter Event.isWrite = []) ∧
    ((∀ ci ∈ p.items, isValidObjectId ci.product_id = true ∧
        ∃ prod, db.findProduct ci.product_id = some prod) →
      isValidObjectId p.user_id = false →
      (checkout db p).2 = .error .invalidId) := by
  refine ⟨checkout_lookups_valid db p, ?_, ?_⟩
  · intro hmal
    have herr : ∃ e, (checkout db p).2 = .error e := by
      rcases hpc : priceCart db p.items with ⟨tr0, res⟩
      cases res with
      | error e => exact ⟨e, by rw [checkout_priceError db p tr0 e hpc]⟩
      | ok pr =>
        obtain ⟨items, subtotal⟩ := pr
        rcases hmal with hvu | ⟨ci, hci, hvci⟩
        · exact ⟨.invalidId, by rw [checkout_invalidUser db p tr0 items subtotal hpc hvu]⟩
        · obtain ⟨hf, _⟩ := priceCart_ok_items db p.items tr0 items subtotal hpc
          obtain ⟨it, _, _, _, _, hvtrue, _⟩ := forall₂_mem_left hf ci hci
          rw [hvtrue] at hvci
          cases hvci
    obtain ⟨e, he⟩ := herr
    refine ⟨⟨e, he⟩, ?_⟩
    have h2 : checkout db p = ((checkout db p).1, .error e) := by rw [← he]
    exact checkout_error_no_writes db p (checkout db p).1 e h2
  · intro hall hvu
    obtain ⟨tr, items, s, hp⟩ := priceCart_all_found db p.items hall
    rw [checkout_invalidUser db p tr items s hp hvu]

/-- Concrete outcome of the negative-quantity checkout against `dbHalf`:
the truncated subtotal yields -12 earned points, a stored balance of -12,
and no ledger entry at all. -/
theorem reqNegQty_outcome (tr : List Event) (db2 : DB) (resp : CheckoutResponse)
    (h : checkout dbHalf reqNegQty = (tr, .ok (db2, resp))) :
    resp.points_earned = -12 ∧ resp.new_balance = -12 ∧
    db2.findUser uidAda = some (-12) ∧ txSum uidAda db2.txs = 0 := by
  obtain ⟨tr0, items, subtotal, balance, hp, hv, hu, hb, htr, hdb2, hresp⟩ :=
    checkout_ok_inv _ _ _ _ _ h
  have hp2 : priceCart dbHalf reqNegQty.items =
      ([Event.lookupProduct pidCake],
       .ok ([{ product_id := pidCake, title := "Half", quantity := -1,
               unit_price := 12.5, variant := none }],
            (12.5 : ℚ) * ((-1 : Int) : ℚ) + 0)) := rfl
  rw [hp2] at hp
  obtain ⟨h1, h2⟩ := Prod.mk.inj hp
  obtain ⟨h3, h4⟩ := Prod.mk.inj (Except.ok.inj h2)
  have hu0 : dbHalf.findUser reqNegQty.user_id = some 0 := rfl
  rw [hu0] at hu
  obtain rfl := Option.some.inj hu
  subst h4
  subst h3
  subst hresp
  subst hdb2
  have hpe : pyInt ((12.5 : ℚ) * ((-1 : Int) : ℚ) + 0) = -12 := by
    rw [show (12.5 : ℚ) * ((-1 : Int) : ℚ) + 0 = -(12.5 : ℚ) by push_cast; norm_num,
      pyInt_neg, pyInt_eq_floor _ (by norm_num),
      show ⌊(12.5 : ℚ)⌋ = 12 by rw [Int.floor_eq_iff]; norm_num]
  refine ⟨?_, ?_, ?_, ?_⟩
  · exact hpe
  · show (0 : Int) - max 0 reqNegQty.redeem_points / 100 * 100 +
      pyInt ((12.5 : ℚ) * ((-1 : Int) : ℚ) + 0) = -12
    rw [hpe]
    decide
  · show (updateUserBalance dbHalf.users reqNegQty.user_id
      ((0 : Int) - max 0 reqNegQty.redeem_points / 100 * 100 +
        pyInt ((12.5 : ℚ) * ((-1 : Int) : ℚ) + 0))).lookup uidAda = some (-12)
    rw [hpe]
    decide
  · show txSum uidAda ((dbHalf.txs ++
      (if (max 0 reqNegQty.redeem_points / 100 * 100 : Int) > 0 then
        [{ user_id := reqNegQty.user_id, order_id := some dbHalf.orders.length,
           type := "redeem",
           points := -(max 0 reqNegQty.redeem_points / 100 * 100),
           note := "Points redeemed at checkout" }]
       else [])) ++
      (if pyInt ((12.5 : ℚ) * ((-1 : Int) : ℚ) + 0) > 0 then
        [{ user_id := reqNegQty.user_id, order_id := some dbHalf.orders.length,
           type := "earn",
           points := pyInt ((12.5 : ℚ) * ((-1 : Int) : ℚ) + 0),
           note := "Points earned from order" }]
       else [])) = 0
    rw [hpe]
    decide

/-- C3 counterexample: with starting balance 0 a negative-quantity cart
drives the stored balance negative. -/
theorem negative_balance_cex :
    ∃ tr db2 resp, checkout dbHalf reqNegQty = (tr, .ok (db2, resp)) ∧
      dbHalf.findUser reqNegQty.user_id = some 0 ∧
      resp.new_balance < 0 := by
  refine ⟨_, _, _, rfl, rfl, ?_⟩
  rw [(reqNegQty_outcome _ _ _ rfl).2.1]
  decide

/-- C5 counterexample: on a negative subtotal the earned points are the
truncation toward zero, not the floor. -/
theorem points_earned_not_floor_cex :
    ∃ tr db2 resp, checkout dbHalf reqNegQty = (tr, .ok (db2, resp)) ∧
      priceCart dbHalf reqNegQty.items =
        ([Event.lookupProduct pidCake],
         .ok ([{ product_id := pidCake, title := "Half", quantity := -1,
                 unit_price := 12.5, variant := none }],
              (12.5 : ℚ) * ((-1 : Int) : ℚ) + 0)) ∧
      resp.points_earned ≠ ⌊(12.5 : ℚ) * ((-1 : Int) : ℚ) + 0⌋ := by
  refine ⟨_, _, _, rfl, rfl, ?_⟩
  rw [(reqNegQty_outcome _ _ _ rfl).1,
    show (12.5 : ℚ) * ((-1 : Int) : ℚ) + 0 = -(12.5 : ℚ) by push_cast; norm_num,
    show ⌊-(12.5 : ℚ)⌋ = -13 by rw [Int.floor_eq_iff]; norm_num]
  decide

/-- C8 counterexample: one successful checkout (negative quantity, fresh
user) leaves the stored balance at -12 while the ledger deltas sum to 0. -/
theorem ledger_mismatch_cex :
    ∃ db2, runCheckouts dbHalf [reqNegQty] = some db2 ∧
      dbHalf.findUser uidAda = some 0 ∧ txSum uidAda dbHalf.txs = 0 ∧
      db2.findUser uidAda ≠ some (txSum uidAda db2.txs) := by
  refine ⟨_, rfl, rfl, rfl, ?_⟩
  rw [(reqNegQty_outcome _ _ _ rfl).2.2.1, (reqNegQty_outcome _ _ _ rfl).2.2.2]
  decide

/-- C9 counterexample: with a well-formed, resolvable product id and a
malformed user id, checkout does fail with the invalid-id error, but only
after the product lookup has already been performed. -/
theorem invalid_id_after_lookup_cex :
    (checkout dbMain reqBadUser).2 = .error .invalidId ∧
    (checkout dbMain reqBadUser).1 = [Event.lookupProduct pidCake] :=
  ⟨rfl, rfl⟩

/-- Lookup in a one-entry association list only ever returns that entry. -/
theorem lookup_singleton {β : Type} (k a : String) (v w : β)
    (h : List.lookup a [(k, v)] = some w) : w = v := by
  rw [List.lookup] at h
  rcases hbeq : a == k with _ | _
  · rw [hbeq] at h
    rw [List.lookup] at h
    cases h
  · rw [hbeq] at h
    exact (Option.some.inj h).symm

theorem dbMain_price_nonneg :
    ∀ id prod, dbMain.findProduct id = some prod → 0 ≤ prod.price := by
  intro id prod hh
  rw [lookup_singleton pidCake id _ prod hh]
  norm_num

theorem dbHalf_price_nonneg :
    ∀ id prod, dbHalf.findProduct id = some prod → 0 ≤ prod.price := by
  intro id prod hh
  rw [lookup_singleton pidCake id _ prod hh]
  norm_num

theorem c1_witness : ∃ tr db2 resp tr0 items subtotal,
    checkout dbMain reqMain = (tr, Except.ok (db2, resp)) ∧
    priceCart dbMain reqMain.items = (tr0, Except.ok (items, subtotal)) ∧
    (resp.points_redeemed = max 0 reqMain.redeem_points / 100 * 100 ∧
     resp.total = round2 (max 0 (subtotal -
       ((max 0 reqMain.redeem_points / 100 * 5 : Int) : ℚ))) ∧
     ∃ o : Order, db2.orders = dbMain.orders ++ [o] ∧
       o.discount = ((max 0 reqMain.redeem_points / 100 * 5 : Int) : ℚ) ∧
       o.total = resp.total) :=
  ⟨_, _, _, _, _, _, rfl, rfl,
    checkout_settlement_formulas dbMain reqMain _ _ _ _ _ _ rfl rfl⟩

theorem c2_witness : ∃ tr0 items subtotal,
    priceCart dbMain reqMain.items = (tr0, Except.ok (items, subtotal)) ∧
    (((checkout dbMain reqMain).2 = .error .insufficientPoints ↔
        max 0 reqMain.redeem_points > 150) ∧
     (reqMain.redeem_points = 150 → (0 : Int) ≤ 150 →
       ∃ db2 resp, (checkout dbMain reqMain).2 = .ok (db2, resp))) :=
  ⟨_, _, _, rfl,
    insufficient_points_boundary dbMain reqMain _ _ _ 150 rfl rfl rfl⟩

theorem c3_witness : ∃ tr db2 resp,
    checkout dbMain reqMain = (tr, Except.ok (db2, resp)) ∧
    (resp.new_balance = 150 - resp.points_redeemed + resp.points_earned ∧
     db2.findUser reqMain.user_id = some resp.new_balance ∧
     ((0 : Int) ≤ 150 →
       (∀ id prod, dbMain.findProduct id = some prod → 0 ≤ prod.price) →
       (∀ ci ∈ reqMain.items, 0 ≤ ci.quantity) →
       0 ≤ resp.new_balance)) :=
  ⟨_, _, _, rfl, new_balance_correct dbMain reqMain _ _ _ 150 rfl rfl⟩

theorem c4_witness :
    (checkout dbMain reqGhost).1.filter Event.isWrite = [] :=
  (failures_precede_writes dbMain reqGhost).1
    [Event.lookupProduct pidGhost] (.productNotFound pidGhost) rfl

theorem c5_witness : ∃ tr db2 resp tr0 items subtotal,
    checkout dbMain reqMain = (tr, Except.ok (db2, resp)) ∧
    priceCart dbMain reqMain.items = (tr0, Except.ok (items, subtotal)) ∧
    resp.points_earned = ⌊subtotal⌋ :=
  ⟨_, _, _, _, _, _, rfl, rfl,
    points_earned_floor dbMain reqMain _ _ _ _ _ _ rfl rfl
      dbMain_price_nonneg
      (fun ci hci => by
        rcases List.mem_singleton.mp hci with rfl
        decide)⟩

theorem c6_witness : ∃ tr items s,
    priceCart dbMain reqMain.items = (tr, Except.ok (items, s)) ∧
    ((∀ it ∈ items, ∃ prod, dbMain.findProduct it.product_id = some prod ∧
        it.unit_price = prod.price) ∧
     s = (items.map fun it => it.unit_price * (it.quantity : ℚ)).sum ∧
     (∀ g : Option String → Option String,
       priceCart dbMain (reqMain.items.map fun ci => { ci with variant := g ci.variant }) =
         (tr, .ok (items.map fun it => { it with variant := g it.variant }, s)))) :=
  ⟨_, _, _, rfl, pricing_uses_base_price dbMain reqMain.items _ _ _ rfl⟩

theorem c7_witness : ∃ tr db2 resp,
    checkout dbMain reqMain = (tr, Except.ok (db2, resp)) ∧
    (resp.order_id = dbMain.orders.length ∧
     (∃ o, db2.orders = dbMain.orders ++ [o]) ∧
     db2.txs = (dbMain.txs ++
       (if resp.points_redeemed > 0 then
         [{ user_id := reqMain.user_id, order_id := some resp.order_id,
            type := "redeem", points := -resp.points_redeemed,
            note := "Points redeemed at checkout" }]
        else [])) ++
       (if resp.points_earned > 0 then
         [{ user_id := reqMain.user_id, order_id := some resp.order_id,
            type := "earn", points := resp.points_earned,
            note := "Points earned from order" }]
        else [])) :=
  ⟨_, _, _, rfl, ledger_entries dbMain reqMain _ _ _ rfl⟩

theorem c8_witness : ∃ db2,
    runCheckouts dbHalf [reqOne] = some db2 ∧
    db2.findUser uidAda = some (txSum uidAda db2.txs) :=
  ⟨_, rfl, ledger_reconciles dbHalf [reqOne] uidAda _
    dbHalf_price_nonneg
    (fun p hp => by
      rcases List.mem_singleton.mp hp with rfl
      intro ci hci
      rcases List.mem_singleton.mp hci with rfl
      decide)
    rfl rfl rfl⟩

theorem c10_witness : ∃ tr db2 resp,
    checkout dbMain reqEmpty = (tr, .ok (db2, resp)) ∧
      resp.total = 0 ∧ resp.points_earned = 0 ∧
      resp.points_redeemed = max 0 reqEmpty.redeem_points / 100 * 100 ∧
      resp.new_balance = 150 - resp.points_redeemed ∧
      (∃ o : Order, db2.orders = dbMain.orders ++ [o] ∧ o.items = [] ∧
        o.subtotal = 0 ∧ o.total = 0 ∧ o.points_earned = 0) ∧
      db2.findUser reqEmpty.user_id = some resp.new_balance :=
  empty_cart_checkout dbMain reqEmpty 150 rfl rfl rfl (by decide)

end Cakebox
